import Mathlib

/-!
Shallow embedding of the two conversion pipelines of the repository
(`src/converters/svgToGeojson.ts` and the geojson-to-svg converter), together
with proofs of the specified properties.

External collaborators (the markup sanitizer `pathologize`, the DOM parser
used via `container.innerHTML`, the path sampler `pathToCoords`, the markup
renderer `GeoJSON2SVG` and JS number formatting) are taken as function
parameters: the code under verification only composes their outputs.
Coordinates are modelled as rationals; JS `Math.round` is modelled by its
exact-value semantics (nearest integer, ties toward positive infinity).
-/

namespace SvgGeo

abbrev Coord : Type := ℚ × ℚ

/-- The ASCII part of JS whitespace (`\s`, `String.prototype.trim`):
space, tab, line feed, vertical tab, form feed, carriage return. -/
def isJsSpace (c : Char) : Bool :=
  c = ' ' || c = '\t' || c = '\n' || c = '\x0b' || c = '\x0c' || c = '\r'

/-- Models `!s.trim()` in JS: true iff every character is whitespace. -/
def isBlankStr (s : String) : Bool :=
  s.toList.all isJsSpace

/-- Longest prefix of decimal digits, and the remaining characters. -/
def takeDigits : List Char → List Char × List Char
  | [] => ([], [])
  | c :: cs =>
    if c.isDigit then
      let (ds, r) := takeDigits cs
      (c :: ds, r)
    else ([], c :: cs)

def digitsToNat (ds : List Char) : ℕ :=
  ds.foldl (fun a c => a * 10 + (c.toNat - 48)) 0

/-- Model of the JS builtin `parseFloat`: skip leading whitespace, optional
sign, decimal digits with optional fraction and optional exponent; `none`
models the NaN result when no digit is found.  (The `Infinity` literal is
outside the rational model.) -/
def jsParseFloat (s : String) : Option ℚ :=
  let cs := s.toList.dropWhile isJsSpace
  let (sign, cs1) : ℚ × List Char :=
    match cs with
    | '+' :: r => (1, r)
    | '-' :: r => (-1, r)
    | r => (1, r)
  let (intDs, cs2) := takeDigits cs1
  let (fracDs, cs3) : List Char × List Char :=
    match cs2 with
    | '.' :: r => takeDigits r
    | r => ([], r)
  if intDs.isEmpty && fracDs.isEmpty then none
  else
    let mantissa : ℚ :=
      (digitsToNat intDs : ℚ) + (digitsToNat fracDs : ℚ) / 10 ^ fracDs.length
    let expVal : Option ℤ :=
      match cs3 with
      | e :: r =>
        if e = 'e' || e = 'E' then
          let (esign, r1) : ℤ × List Char :=
            match r with
            | '+' :: r2 => (1, r2)
            | '-' :: r2 => (-1, r2)
            | r2 => (1, r2)
          let (eds, _) := takeDigits r1
          if eds.isEmpty then none else some (esign * (digitsToNat eds : ℤ))
        else none
      | [] => none
    match expVal with
    | none => some (sign * mantissa)
    | some e => some (sign * mantissa * (10 : ℚ) ^ e)

/-- `parseLength` from `svgToGeojson.ts`: `null`/empty attribute gives
`null`, otherwise `parseFloat` with a NaN check. -/
def parseLength (value : Option String) : Option ℚ :=
  match value with
  | none => none
  | some v => if v = "" then none else jsParseFloat v

/-- Maximal runs of non-whitespace characters, in order: models
`s.trim().split(/\s+/)` for a string with at least one non-space character
(for an all-space string JS yields `[""]` and this model yields `[]`;
both have length different from 4, which is all the caller tests). -/
def tokensAux : List Char → List Char → List (List Char)
  | [], cur => if cur.isEmpty then [] else [cur.reverse]
  | c :: cs, cur =>
    if isJsSpace c then
      if cur.isEmpty then tokensAux cs [] else cur.reverse :: tokensAux cs []
    else tokensAux cs (c :: cur)

def splitWsTokens (s : String) : List String :=
  (tokensAux s.toList []).map List.asString

/-- Reference-height resolution from `convertSvgToGeoJson` (lines 146-155):
`parseLength(svg.getAttribute('height')) ?? (viewBox fallback)`, where the
fallback splits the `viewBox` attribute on whitespace, requires exactly 4
parts and reads `parts[3]` (the fourth part) through `parseFloat`. -/
def resolveSvgHeight (heightAttr viewBoxAttr : Option String) : Option ℚ :=
  match parseLength heightAttr with
  | some h => some h
  | none =>
    match viewBoxAttr with
    | none => none
    | some vb =>
      let parts := splitWsTokens vb
      if parts.length = 4 then jsParseFloat (parts.getD 3 "") else none

/-- Modelled from the spec's words (claim C4): the same resolution but with
"the 3rd component interpreted as the height" — the third of the four
whitespace-separated viewport-box components. -/
def specResolveHeightThird (heightAttr viewBoxAttr : Option String) : Option ℚ :=
  match parseLength heightAttr with
  | some h => some h
  | none =>
    match viewBoxAttr with
    | none => none
    | some vb =>
      let parts := splitWsTokens vb
      if parts.length = 4 then jsParseFloat (parts.getD 2 "") else none

/-! ### Feature Inference Engine (`inferGeometry` and helpers) -/

/-- A path element as seen through `getAttribute`: each recognized attribute
is `none` when absent (DOM `null`). -/
structure PathElement where
  id : Option String := none
  fill : Option String := none
  stroke : Option String := none
  strokeWidth : Option String := none
  inkscapeLabel : Option String := none
  dataName : Option String := none
  d : Option String := none
deriving DecidableEq

/-- JS truthiness of a `string | undefined` value: present and non-empty. -/
def truthy : Option String → Bool
  | none => false
  | some s => !(s = "")

/-- The test `/z\s*$/i.test(d)`: after discarding trailing whitespace the
string ends in `z` or `Z`. -/
def endsInCloseCmd (s : String) : Bool :=
  match s.toList.reverse.dropWhile isJsSpace with
  | [] => false
  | c :: _ => c = 'z' || c = 'Z'

/-- `closeRing` from `svgToGeojson.ts` (lines 34-42). -/
def closeRing (coords : List Coord) : List Coord :=
  match coords with
  | [] => []
  | first :: rest =>
    let lastC := (first :: rest).getLast (List.cons_ne_nil first rest)
    if first.1 = lastC.1 ∧ first.2 = lastC.2 then first :: rest
    else (first :: rest) ++ [first]

/-- Exact-value semantics of JS `Math.round`: nearest integer, ties toward
positive infinity. -/
def jsRound (q : ℚ) : ℤ := ⌊q + 1 / 2⌋

/-- `roundCoords` from `svgToGeojson.ts` (lines 44-50):
`Math.round(v * factor) / factor` with `factor = 10 ^ precision`, skipped
when no precision is given. -/
def roundCoords (coords : List Coord) (precision : Option ℕ) : List Coord :=
  match precision with
  | none => coords
  | some p =>
    let factor : ℚ := 10 ^ p
    coords.map fun c => ((jsRound (c.1 * factor) : ℚ) / factor, (jsRound (c.2 * factor) : ℚ) / factor)

/-- Modelled from the spec's words (claim C5): round half away from zero. -/
def roundHalfAwayFromZero (q : ℚ) : ℤ :=
  if 0 ≤ q then ⌊q + 1 / 2⌋ else -⌊-q + 1 / 2⌋

/-- The per-coordinate transform inside `inferGeometry` (lines 68-73):
flip `y` against the reference height when requested and available. -/
def transformCoord (flipY : Bool) (svgHeight : Option ℚ) (c : Coord) : Coord :=
  match flipY, svgHeight with
  | true, some h => (c.1, h - c.2)
  | _, _ => c

/-- The geometry part of an inferred feature: a polygon with its single
ring, or a line string. -/
inductive GeomOut where
  | polygon (ring : List Coord)
  | lineString (coordinates : List Coord)
deriving DecidableEq

def GeomOut.isPolygon : GeomOut → Bool
  | .polygon _ => true
  | .lineString _ => false

structure FeatureOut where
  geometry : GeomOut
  properties : List (String × String)
deriving DecidableEq

/-- `inferGeometry` from `svgToGeojson.ts` (lines 52-103). -/
def inferGeometry (coords : List Coord) (p : PathElement) (flipY : Bool)
    (svgHeight : Option ℚ) (precision : Option ℕ) : FeatureOut :=
  let name : Option String :=
    match p.inkscapeLabel with
    | some v => some v
    | none => p.dataName
  let closedPath := endsInCloseCmd (p.d.getD "")
  let hasFill := truthy p.fill && !(p.fill.getD "" = "none")
  let transformedCoords := coords.map (transformCoord flipY svgHeight)
  let rounded := roundCoords transformedCoords precision
  let properties : List (String × String) :=
    (if truthy p.id then [("id", p.id.getD "")] else []) ++
    (if truthy name then [("name", name.getD "")] else []) ++
    (if truthy p.fill then [("fill", p.fill.getD "")] else []) ++
    (if truthy p.stroke then [("stroke", p.stroke.getD "")] else []) ++
    (if truthy p.strokeWidth then [("strokeWidth", p.strokeWidth.getD "")] else [])
  if closedPath || hasFill then
    { geometry := .polygon (closeRing rounded), properties }
  else
    { geometry := .lineString rounded, properties }

/-! ### `stripUnsupported` and the sanitization fallback -/

/-- `s` starts with `pat`, comparing characters case-insensitively
(the `i` regex flag). -/
def startsWithCI : List Char → List Char → Bool
  | [], _ => true
  | _ :: _, [] => false
  | p :: ps, c :: cs => (p.toLower = c.toLower) && startsWithCI ps cs

/-- Index of the first case-insensitive occurrence of `pat` in `s`. -/
def findCIAux (pat : List Char) : List Char → ℕ → Option ℕ
  | [], i => if pat.isEmpty then some i else none
  | c :: cs, i => if startsWithCI pat (c :: cs) then some i else findCIAux pat cs (i + 1)

def findCI (pat s : List Char) : Option ℕ :=
  findCIAux pat s 0

/-- One global, case-insensitive, lazy removal pass: each match spans from
the earliest occurrence of `openT` to the nearest following occurrence of
`closeT`; scanning resumes after the match.  Models
`str.replace(/openT[\s\S]*?closeT/gi, '')`.  The fuel argument bounds the
recursion by the string length; each step consumes at least one character. -/
def removeTagSpansAux (openT closeT : List Char) : ℕ → List Char → List Char
  | 0, s => s
  | fuel + 1, s =>
    match findCI openT s with
    | none => s
    | some i =>
      let pre := s.take i
      let afterOpen := s.drop (i + openT.length)
      match findCI closeT afterOpen with
      | none => s
      | some j =>
        let rest := afterOpen.drop (j + closeT.length)
        pre ++ removeTagSpansAux openT closeT fuel rest

def removeTagSpans (openT closeT : List Char) (s : List Char) : List Char :=
  removeTagSpansAux openT closeT s.length s

/-- Like `removeTagSpans` but each whole match (tags included) is replaced
by `f` applied to it.  Models `str.replace(/openT[\s\S]*?closeT/gi, f)`. -/
def transformTagSpansAux (openT closeT : List Char) (f : List Char → List Char) :
    ℕ → List Char → List Char
  | 0, s => s
  | fuel + 1, s =>
    match findCI openT s with
    | none => s
    | some i =>
      let pre := s.take i
      let afterOpen := s.drop (i + openT.length)
      match findCI closeT afterOpen with
      | none => s
      | some j =>
        let matched := (s.drop i).take (openT.length + j + closeT.length)
        let rest := afterOpen.drop (j + closeT.length)
        pre ++ f matched ++ transformTagSpansAux openT closeT f fuel rest

def transformTagSpans (openT closeT : List Char) (f : List Char → List Char)
    (s : List Char) : List Char :=
  transformTagSpansAux openT closeT f s.length s

def removeClipAndMask (s : List Char) : List Char :=
  removeTagSpans "<mask".toList "</mask>".toList
    (removeTagSpans "<clipPath".toList "</clipPath>".toList s)

/-- `stripUnsupported` from `svgToGeojson.ts` (lines 106-114): remove
clip-path spans, then mask spans, then rewrite each defs span by removing
clip-path and mask spans inside it. -/
def stripUnsupported (svgMarkup : String) : String :=
  List.asString
    (transformTagSpans "<defs".toList "</defs>".toList removeClipAndMask
      (removeClipAndMask svgMarkup.toList))

/-- The sanitization attempt of `convertSvgToGeoJson` (lines 122-136).
The external sanitizer `pathologize` appears as the parameter `sanitize`;
`none` models a rejected input (a thrown error). -/
def sanitizeWithFallback (sanitize : String → Option String) (svgText : String) : String :=
  match sanitize svgText with
  | some s => s
  | none =>
    let cleaned := stripUnsupported svgText
    if cleaned ≠ svgText then
      match sanitize cleaned with
      | some s => s
      | none => cleaned
    else svgText

/-! ### Conversion Orchestrator (forward): `convertSvgToGeoJson` -/

/-- The root container's recognized attributes. -/
structure SvgRoot where
  height : Option String := none
  viewBox : Option String := none
deriving DecidableEq

/-- Result of parsing markup into a DOM-like tree (`container.innerHTML =
sanitized` followed by the `svg` and `path` queries): the first `svg`
element if any, and all `path` elements in document order. -/
structure DomContainer where
  svg : Option SvgRoot := none
  paths : List PathElement := []

structure SvgMetadata where
  featureCount : ℕ
  pathCount : ℕ
  samplePoints : ℕ
deriving DecidableEq

structure SvgToGeoJsonResult where
  features : List FeatureOut
  metadata : SvgMetadata
deriving DecidableEq

structure SvgToGeoJsonOptions where
  samplePoints : ℕ := 250
  translateX : ℚ := 0
  translateY : ℚ := 0
  scale : ℚ := 1
  flipY : Bool := true
  precision : Option ℕ := none

/-- `convertSvgToGeoJson` from `svgToGeojson.ts` (lines 116-184).  External
collaborators are parameters: `sanitize` (the sanitizer), `parse` (the DOM
parser behind `innerHTML`/`querySelector`) and `sample` (`pathToCoords`,
taking the element, scale, sample count and the two translations).  Thrown
input errors are modelled by `Except.error` carrying the message. -/
def convertSvgToGeoJson (sanitize : String → Option String)
    (parse : String → DomContainer)
    (sample : PathElement → ℚ → ℕ → ℚ → ℚ → List Coord)
    (svgText : String) (options : SvgToGeoJsonOptions) :
    Except String SvgToGeoJsonResult :=
  if isBlankStr svgText then .error "SVG input is empty."
  else
    let sanitized := sanitizeWithFallback sanitize svgText
    let container := parse sanitized
    match container.svg with
    | none => .error "Provided input does not contain a valid <svg> element."
    | some svg =>
      let svgHeight := resolveSvgHeight svg.height svg.viewBox
      if container.paths.isEmpty then .error "No <path> elements were found in the SVG."
      else
        let features := container.paths.filterMap fun pathElement =>
          let coords := sample pathElement options.scale options.samplePoints
            options.translateX options.translateY
          if coords.isEmpty then none
          else some (inferGeometry coords pathElement options.flipY svgHeight options.precision)
        .ok
          { features
            metadata :=
              { featureCount := features.length
                pathCount := container.paths.length
                samplePoints := options.samplePoints } }

/-! ### Bounding Envelope Calculator (`flattenCoords`, `computeBoundingBox`) -/

/-- The tagged geometry union dispatched on by `flattenCoords`.  The
`unsupported` constructor stands for a runtime value whose type tag is
none of the recognized ones (the switch's `default` branch). -/
inductive Geometry where
  | point (coordinates : Coord)
  | multiPoint (coordinates : List Coord)
  | lineString (coordinates : List Coord)
  | multiLineString (coordinates : List (List Coord))
  | polygon (coordinates : List (List Coord))
  | multiPolygon (coordinates : List (List (List Coord)))
  | geometryColl (geometries : List Geometry)
  | unsupported (tag : String)

mutual

/-- `flattenCoords` from the geojson-to-svg converter (lines 34-59),
with the push-accumulator made explicit: pushes every coordinate of the
geometry onto `acc` in order, recursing into collections;
an unrecognized tag falls through the `default` branch and pushes
nothing. -/
def flattenCoords : Geometry → List Coord → List Coord
  | .point c, acc => acc ++ [c]
  | .multiPoint cs, acc => acc ++ cs
  | .lineString cs, acc => acc ++ cs
  | .multiLineString css, acc => acc ++ css.flatten
  | .polygon css, acc => acc ++ css.flatten
  | .multiPolygon csss, acc => acc ++ csss.flatten.flatten
  | .geometryColl gs, acc => flattenCoordsList gs acc
  | .unsupported _, acc => acc

/-- `geometry.geometries.forEach((geom) => flattenCoords(geom, collection))`. -/
def flattenCoordsList : List Geometry → List Coord → List Coord
  | [], acc => acc
  | g :: gs, acc => flattenCoordsList gs (flattenCoords g acc)

end

/-- A feature as consumed by `computeBoundingBox`: only its (possibly
null) geometry matters. -/
structure FeatureObj where
  geometry : Option Geometry := none

/-- The GeoJSON top-level union: a feature set, a single feature, or a
bare geometry.  Entries of a feature set may be null (the `!feature`
guard in the source). -/
inductive GeoJsonValue where
  | featureColl (features : List (Option FeatureObj))
  | feature (f : FeatureObj)
  | geom (g : Geometry)

/-- The `collect` closure of `computeBoundingBox`. -/
def collectFeature (f : Option FeatureObj) (acc : List Coord) : List Coord :=
  match f with
  | none => acc
  | some fo =>
    match fo.geometry with
    | none => acc
    | some g => flattenCoords g acc

/-- The flat coordinate list gathered by `computeBoundingBox` before the
min/max reduction. -/
def allCoords : GeoJsonValue → List Coord
  | .featureColl fs => fs.foldl (fun acc f => collectFeature f acc) []
  | .feature f => collectFeature (some f) []
  | .geom g => flattenCoords g []

structure BoundingBox where
  minX : ℚ
  minY : ℚ
  maxX : ℚ
  maxY : ℚ
deriving DecidableEq

/-- One step of the `coords.forEach` min/max update. -/
def bboxStep (bb : BoundingBox) (c : Coord) : BoundingBox :=
  { minX := if c.1 < bb.minX then c.1 else bb.minX
    minY := if c.2 < bb.minY then c.2 else bb.minY
    maxX := if c.1 > bb.maxX then c.1 else bb.maxX
    maxY := if c.2 > bb.maxY then c.2 else bb.maxY }

/-- `computeBoundingBox` from the geojson-to-svg converter (lines 61-92):
gather all coordinates, return `null` when there are none, otherwise
seed min/max from the first coordinate and scan the whole list. -/
def computeBoundingBox (geojson : GeoJsonValue) : Option BoundingBox :=
  match allCoords geojson with
  | [] => none
  | c :: cs =>
    some ((c :: cs).foldl bboxStep
      { minX := c.1, minY := c.2, maxX := c.1, maxY := c.2 })

/-! ### Conversion Orchestrator (reverse): `convertGeoJsonToSvg` -/

structure MapExtent where
  left : ℚ
  bottom : ℚ
  right : ℚ
  top : ℚ

inductive FitTo where
  | width
  | height

structure GeoJsonToSvgOptions where
  viewportWidth : ℚ
  viewportHeight : ℚ
  mapExtent : Option MapExtent := none
  precision : Option ℕ := none
  fitTo : Option FitTo := none
  pointRadius : Option ℚ := none
  mapExtentFromGeojson : Option Bool := none

structure GeoMetadata where
  elementCount : ℕ
  bbox : Option BoundingBox

structure GeoJsonToSvgResult where
  svg : String
  metadata : GeoMetadata

/-- `buildSvgWrapper` from the geojson-to-svg converter (lines 94-109).
`showNum` renders a number the way JS template literals do. -/
def buildSvgWrapper (showNum : ℚ → String) (elements : List String)
    (width height : ℚ) (extent : Option MapExtent) : String :=
  let viewBox :=
    match extent with
    | some e =>
      showNum e.left ++ " " ++ showNum e.bottom ++ " " ++
        showNum (e.right - e.left) ++ " " ++ showNum (e.top - e.bottom)
    | none => "0 0 " ++ showNum width ++ " " ++ showNum height
  String.join
    (["<svg xmlns=\"http://www.w3.org/2000/svg\" width=\"" ++ showNum width ++
        "\" height=\"" ++ showNum height ++ "\" viewBox=\"" ++ viewBox ++ "\">"] ++
      elements ++ ["</svg>"])

/-- `convertGeoJsonToSvg` from the geojson-to-svg converter (lines
111-148).  External collaborators are parameters: `jsonParse` models
`JSON.parse` composed with reading the GeoJSON union (`none` = thrown
syntax error) and `render` models the configured `GeoJSON2SVG.convert`. -/
def convertGeoJsonToSvg (jsonParse : String → Option GeoJsonValue)
    (render : GeoJsonValue → List String) (showNum : ℚ → String)
    (geojsonText : String) (options : GeoJsonToSvgOptions) :
    Except String GeoJsonToSvgResult :=
  if isBlankStr geojsonText then .error "GeoJSON input is empty."
  else
    match jsonParse geojsonText with
    | none => .error "GeoJSON input is not valid JSON."
    | some parsed =>
      let svgElements := render parsed
      let svg := buildSvgWrapper showNum svgElements
        options.viewportWidth options.viewportHeight options.mapExtent
      let bbox := computeBoundingBox parsed
      .ok
        { svg
          metadata := { elementCount := svgElements.length, bbox } }

/-! ### Helper lemmas -/

theorem truthy_iff (o : Option String) : truthy o = true ↔ ∃ s, o = some s ∧ s ≠ "" := by
  cases o <;> simp [truthy]

theorem hasFill_iff (o : Option String) :
    (truthy o && !(o.getD "" = "none")) = true ↔
      ∃ s, o = some s ∧ s ≠ "" ∧ s ≠ "none" := by
  cases o with
  | none => simp [truthy]
  | some s => simp [truthy, and_assoc]

theorem roundCoords_length (coords : List Coord) (precision : Option ℕ) :
    (roundCoords coords precision).length = coords.length := by
  cases precision <;> simp [roundCoords]

theorem roundCoords_ne_nil (coords : List Coord) (precision : Option ℕ)
    (h : coords ≠ []) : roundCoords coords precision ≠ [] := by
  intro hc
  apply h
  have := roundCoords_length coords precision
  rw [hc] at this
  exact List.eq_nil_of_length_eq_zero this.symm

theorem closeRing_head_eq_last (l : List Coord) :
    (closeRing l).head? = (closeRing l).getLast? := by
  match l with
  | [] => rfl
  | first :: rest =>
    simp only [closeRing]
    split
    next h =>
      rw [List.getLast?_eq_getLast (first :: rest) (List.cons_ne_nil first rest)]
      have : first = (first :: rest).getLast (List.cons_ne_nil first rest) :=
        Prod.ext h.1 h.2
      simp [← this]
    next h =>
      rw [List.getLast?_concat]
      simp

theorem closeRing_of_closed (first : Coord) (rest : List Coord)
    (h : (first :: rest).head? = (first :: rest).getLast?) :
    closeRing (first :: rest) = first :: rest := by
  rw [List.getLast?_eq_getLast (first :: rest) (List.cons_ne_nil first rest)] at h
  simp only [List.head?_cons, Option.some.injEq] at h
  simp only [closeRing]
  rw [if_pos ⟨congrArg Prod.fst h, congrArg Prod.snd h⟩]

theorem closeRing_of_open (first : Coord) (rest : List Coord)
    (h : (first :: rest).head? ≠ (first :: rest).getLast?) :
    closeRing (first :: rest) = (first :: rest) ++ [first] := by
  rw [List.getLast?_eq_getLast (first :: rest) (List.cons_ne_nil first rest)] at h
  simp only [List.head?_cons, Ne, Option.some.injEq] at h
  simp only [closeRing]
  rw [if_neg]
  intro hc
  exact h (Prod.ext hc.1 hc.2)

/-- The decision bit of `inferGeometry`, and the rounded transformed
sequence it works on. -/
theorem inferGeometry_geometry (coords : List Coord) (p : PathElement)
    (flipY : Bool) (svgHeight : Option ℚ) (precision : Option ℕ) :
    (inferGeometry coords p flipY svgHeight precision).geometry =
      (if endsInCloseCmd (p.d.getD "") || (truthy p.fill && !(p.fill.getD "" = "none")) then
        GeomOut.polygon
          (closeRing (roundCoords (coords.map (transformCoord flipY svgHeight)) precision))
      else
        GeomOut.lineString (roundCoords (coords.map (transformCoord flipY svgHeight)) precision)) := by
  simp only [inferGeometry]
  split <;> rfl

/-! ### Claim theorems -/

/-- C1: for a path element with a non-empty sampled sequence the inferred
geometry type is Polygon exactly when the drawing instruction ends in a
case-insensitive close-path command (optional trailing whitespace) or the
element has a fill attribute that is present (non-null, non-empty) and not
the literal string "none", and LineString otherwise. -/
theorem C1_polygon_iff_closed_or_fill (coords : List Coord) (p : PathElement)
    (flipY : Bool) (svgHeight : Option ℚ) (precision : Option ℕ)
    (hne : coords ≠ []) :
    (inferGeometry coords p flipY svgHeight precision).geometry.isPolygon = true ↔
      (endsInCloseCmd (p.d.getD "") = true ∨
        ∃ f, p.fill = some f ∧ f ≠ "" ∧ f ≠ "none") := by
  rw [inferGeometry_geometry]
  by_cases hc :
      (endsInCloseCmd (p.d.getD "") || (truthy p.fill && !(p.fill.getD "" = "none"))) = true
  · rw [if_pos hc]
    simp only [GeomOut.isPolygon, true_iff]
    rcases Bool.or_eq_true_iff.mp hc with h | h
    · exact Or.inl h
    · exact Or.inr ((hasFill_iff p.fill).mp h)
  · rw [if_neg hc]
    simp only [GeomOut.isPolygon, Bool.false_eq_true, false_iff]
    intro h
    apply hc
    rcases h with h | h
    · exact Bool.or_eq_true_iff.mpr (Or.inl h)
    · exact Bool.or_eq_true_iff.mpr (Or.inr ((hasFill_iff p.fill).mpr h))

/-- Witness for C1 at a concrete closed path. -/
theorem C1_polygon_iff_closed_or_fill_witness :
    ([( (0 : ℚ), (0 : ℚ) )] ≠ ([] : List Coord)) ∧
      ((inferGeometry [((0 : ℚ), (0 : ℚ))] { d := some "M0 0 Z" } true none none).geometry.isPolygon = true ↔
        (endsInCloseCmd ((some "M0 0 Z").getD "") = true ∨
          ∃ f, (none : Option String) = some f ∧ f ≠ "" ∧ f ≠ "none")) :=
  ⟨by simp,
    C1_polygon_iff_closed_or_fill [((0 : ℚ), (0 : ℚ))] { d := some "M0 0 Z" } true none none
      (by simp)⟩

/-- C2: a Polygon feature's ring starts and ends with the same coordinate;
the ring is exactly the transformed-and-rounded sampled sequence when that
sequence is already closed, and otherwise that sequence with a copy of its
first coordinate appended (interior points untouched); a LineString
feature has exactly as many coordinates as the sampled sequence. -/
theorem C2_ring_closure (coords : List Coord) (p : PathElement) (flipY : Bool)
    (svgHeight : Option ℚ) (precision : Option ℕ) (hne : coords ≠ []) :
    (∀ ring, (inferGeometry coords p flipY svgHeight precision).geometry = .polygon ring →
      ring.head? = ring.getLast? ∧
      (let rounded := roundCoords (coords.map (transformCoord flipY svgHeight)) precision
       (rounded.head? = rounded.getLast? → ring = rounded) ∧
       (rounded.head? ≠ rounded.getLast? →
         ∃ c0, rounded.head? = some c0 ∧ ring = rounded ++ [c0]))) ∧
    (∀ cs, (inferGeometry coords p flipY svgHeight precision).geometry = .lineString cs →
      cs.length = coords.length) := by
  have hmapne : coords.map (transformCoord flipY svgHeight) ≠ [] := by
    simpa using hne
  have hrne : roundCoords (coords.map (transformCoord flipY svgHeight)) precision ≠ [] :=
    roundCoords_ne_nil _ _ hmapne
  constructor
  · intro ring hring
    rw [inferGeometry_geometry] at hring
    have hring' :
        ring = closeRing (roundCoords (coords.map (transformCoord flipY svgHeight)) precision) := by
      by_cases hc :
          (endsInCloseCmd (p.d.getD "") || (truthy p.fill && !(p.fill.getD "" = "none"))) = true
      · rw [if_pos hc] at hring
        exact (GeomOut.polygon.injEq _ _ ▸ hring.symm)
      · rw [if_neg hc] at hring
        exact absurd hring (by simp)
    subst hring'
    refine ⟨closeRing_head_eq_last _, ?_⟩
    obtain ⟨first, rest, hfr⟩ :=
      List.exists_cons_of_ne_nil hrne
    rw [hfr]
    exact ⟨fun h => closeRing_of_closed first rest h,
      fun h => ⟨first, List.head?_cons, closeRing_of_open first rest h⟩⟩
  · intro cs hcs
    rw [inferGeometry_geometry] at hcs
    by_cases hc :
        (endsInCloseCmd (p.d.getD "") || (truthy p.fill && !(p.fill.getD "" = "none"))) = true
    · rw [if_pos hc] at hcs
      exact absurd hcs (by simp)
    · rw [if_neg hc] at hcs
      have : cs = roundCoords (coords.map (transformCoord flipY svgHeight)) precision := by
        exact (GeomOut.lineString.injEq _ _ ▸ hcs.symm)
      subst this
      rw [roundCoords_length, List.length_map]

/-- Witness for C2 at a concrete open-but-filled path: the ring of the
produced polygon is the sampled sequence plus a copy of its first point. -/
theorem C2_ring_closure_witness :
    ([((0 : ℚ), (0 : ℚ)), ((1 : ℚ), (0 : ℚ))] ≠ ([] : List Coord)) ∧
      (∀ ring,
        (inferGeometry [((0 : ℚ), (0 : ℚ)), ((1 : ℚ), (0 : ℚ))] { fill := some "red" }
            false none none).geometry = .polygon ring →
        ring.head? = ring.getLast?) :=
  ⟨by simp, fun ring hring =>
    ((C2_ring_closure [((0 : ℚ), (0 : ℚ)), ((1 : ℚ), (0 : ℚ))] { fill := some "red" }
      false none none (by simp)).1 ring hring).1⟩

/-- C3: with flip requested and a known reference height H each output y
is H minus the sampled y; with flip requested but no reference height the
coordinates pass through unchanged; with flip off they also pass through
unchanged. -/
theorem C3_flip_semantics (coords : List Coord) (H : ℚ) (svgHeight : Option ℚ) :
    coords.map (transformCoord true (some H)) = coords.map (fun c => (c.1, H - c.2)) ∧
    coords.map (transformCoord true none) = coords ∧
    coords.map (transformCoord false svgHeight) = coords := by
  refine ⟨rfl, ?_, ?_⟩
  · have h : transformCoord true none = fun c : Coord => c := rfl
    rw [h, List.map_id']
  · have h : transformCoord false svgHeight = fun c : Coord => c := by
      funext c
      cases svgHeight <;> rfl
    rw [h, List.map_id']

/-- C4 counterexample: on `viewBox="0 0 30 40"` (no height attribute) the
code's resolution reads the fourth component, 40, while reading "the 3rd
component" of the four, as the claim states, yields the width 30. -/
theorem C4_counterexample :
    resolveSvgHeight none (some "0 0 30 40") = some 40 ∧
    specResolveHeightThird none (some "0 0 30 40") = some 30 ∧
    ¬((40 : ℚ) = 30) := by
  refine ⟨?_, ?_, by norm_num⟩ <;>
    simp +decide [resolveSvgHeight, specResolveHeightThird, parseLength, jsParseFloat,
      splitWsTokens, tokensAux, takeDigits, digitsToNat, isJsSpace]

/-- C4 (amended): the reference height prefers a parseable explicit height
attribute; otherwise, when the viewport-box attribute splits into exactly
4 whitespace-separated components, its 4th component (index 3) is parsed
as the height; otherwise the result is absent. -/
theorem C4_height_resolution (hAttr vbAttr : Option String) :
    ((∃ q, parseLength hAttr = some q) → resolveSvgHeight hAttr vbAttr = parseLength hAttr) ∧
    (parseLength hAttr = none → vbAttr = none → resolveSvgHeight hAttr vbAttr = none) ∧
    (∀ s, parseLength hAttr = none → vbAttr = some s → (splitWsTokens s).length ≠ 4 →
      resolveSvgHeight hAttr vbAttr = none) ∧
    (∀ s t0 t1 t2 t3, parseLength hAttr = none → vbAttr = some s →
      splitWsTokens s = [t0, t1, t2, t3] →
      resolveSvgHeight hAttr vbAttr = jsParseFloat t3) := by
  refine ⟨?_, ?_, ?_, ?_⟩
  · rintro ⟨q, hq⟩
    simp [resolveSvgHeight, hq]
  · intro h1 h2
    simp [resolveSvgHeight, h1, h2]
  · intro s h1 h2 h3
    simp [resolveSvgHeight, h1, h2, h3]
  · intro s t0 t1 t2 t3 h1 h2 h3
    simp [resolveSvgHeight, h1, h2, h3]

/-- Witness for C4's amended theorem at `viewBox="0 0 30 40"`. -/
theorem C4_height_resolution_witness :
    resolveSvgHeight none (some "0 0 30 40") = jsParseFloat "40" :=
  (C4_height_resolution none (some "0 0 30 40")).2.2.2 "0 0 30 40" "0" "0" "30" "40"
    rfl rfl (by decide)

/-- C5 counterexample: at precision 0 the coordinate x = −1/2 rounds to 0
(`Math.round` rounds ties toward positive infinity), while
round-half-away-from-zero as claimed would give −1. -/
theorem C5_counterexample :
    roundCoords [((-1 : ℚ) / 2, 0)] (some 0) = [((0 : ℚ), (0 : ℚ))] ∧
    ((roundHalfAwayFromZero ((-1 : ℚ) / 2) : ℚ) / 10 ^ (0 : ℕ)) = -1 ∧
    ¬((0 : ℚ) = -1) := by
  refine ⟨?_, ?_, by norm_num⟩
  · simp only [roundCoords, jsRound, List.map_cons, List.map_nil, List.cons.injEq, and_true,
      Prod.mk.injEq]
    norm_num
  · simp only [roundHalfAwayFromZero]
    norm_num

/-- C5 (amended): omission of a precision passes coordinates through
unrounded; a requested precision p rounds each component to
⌊v·10^p + 1/2⌋ / 10^p (nearest, ties toward positive infinity); and the
rounding input inside the inference engine is the transformed sequence
(rounding happens after scale/translate/flip). -/
theorem C5_round_semantics (coords : List Coord) (p : PathElement)
    (flipY : Bool) (svgHeight : Option ℚ) (k : ℕ) :
    roundCoords coords none = coords ∧
    roundCoords coords (some k) =
      coords.map (fun c =>
        ((⌊c.1 * 10 ^ k + 1 / 2⌋ : ℚ) / 10 ^ k, (⌊c.2 * 10 ^ k + 1 / 2⌋ : ℚ) / 10 ^ k)) ∧
    (∀ precision : Option ℕ,
      (inferGeometry coords p flipY svgHeight precision).geometry =
          .polygon (closeRing (roundCoords (coords.map (transformCoord flipY svgHeight)) precision)) ∨
        (inferGeometry coords p flipY svgHeight precision).geometry =
          .lineString (roundCoords (coords.map (transformCoord flipY svgHeight)) precision)) := by
  refine ⟨rfl, rfl, ?_⟩
  intro precision
  rw [inferGeometry_geometry]
  by_cases hc :
      (endsInCloseCmd (p.d.getD "") || (truthy p.fill && !(p.fill.getD "" = "none"))) = true
  · rw [if_pos hc]
    exact Or.inl rfl
  · rw [if_neg hc]
    exact Or.inr rfl

/-- C6: the sanitizer's failure never by itself aborts the conversion.
On success its output is used; on failure the input is stripped of
clip-path and mask constructs and sanitization is retried on the stripped
text; if the retry also fails the stripped text is used verbatim; if
stripping changed nothing the original raw text is used.  The last
conjunct shows the stripping on a concrete input with the constructs
nested inside a defs block. -/
theorem C6_sanitizer_fallback (sanitize : String → Option String) (svgText : String) :
    (∀ s, sanitize svgText = some s → sanitizeWithFallback sanitize svgText = s) ∧
    (sanitize svgText = none →
      (stripUnsupported svgText = svgText → sanitizeWithFallback sanitize svgText = svgText) ∧
      (stripUnsupported svgText ≠ svgText →
        (∀ s, sanitize (stripUnsupported svgText) = some s →
          sanitizeWithFallback sanitize svgText = s) ∧
        (sanitize (stripUnsupported svgText) = none →
          sanitizeWithFallback sanitize svgText = stripUnsupported svgText))) ∧
    stripUnsupported
        "<svg><defs><clipPath id=\"c\"><rect/></clipPath><mask id=\"m\"><rect/></mask></defs><path d=\"M0 0\"/></svg>" =
      "<svg><defs></defs><path d=\"M0 0\"/></svg>" := by
  refine ⟨?_, ?_, by decide⟩
  · intro s hs
    simp [sanitizeWithFallback, hs]
  · intro hn
    constructor
    · intro hsame
      simp [sanitizeWithFallback, hn, hsame]
    · intro hdiff
      constructor
      · intro s hs
        simp [sanitizeWithFallback, hn, hdiff, hs]
      · intro hs2
        simp [sanitizeWithFallback, hn, hdiff, hs2]

/-- Witness for C6: with a sanitizer that always fails, an input holding a
clip-path span falls back to its stripped form. -/
theorem C6_sanitizer_fallback_witness :
    sanitizeWithFallback (fun _ => none) "<clipPath>x</clipPath>y" =
      stripUnsupported "<clipPath>x</clipPath>y" :=
  (((C6_sanitizer_fallback (fun _ => none) "<clipPath>x</clipPath>y").2.1 rfl).2
    (by decide)).2 rfl

/-- C7: the forward conversion throws exactly when the input is blank, the
parsed markup has no svg element, or it has no path elements; the reverse
conversion throws exactly when the input is blank or fails to parse, and
on a parse failure the result does not depend on the renderer at all (it
fails before invoking it).  `Except` results carry either a full value or
only the error message, so no partial output exists. -/
theorem C7_input_errors (sanitize : String → Option String)
    (parse : String → DomContainer)
    (sample : PathElement → ℚ → ℕ → ℚ → ℚ → List Coord)
    (svgText : String) (options : SvgToGeoJsonOptions)
    (jsonParse : String → Option GeoJsonValue)
    (render render' : GeoJsonValue → List String) (showNum : ℚ → String)
    (geojsonText : String) (goptions : GeoJsonToSvgOptions) :
    ((∃ e, convertSvgToGeoJson sanitize parse sample svgText options = .error e) ↔
      (isBlankStr svgText = true ∨
        (parse (sanitizeWithFallback sanitize svgText)).svg = none ∨
        (parse (sanitizeWithFallback sanitize svgText)).paths = [])) ∧
    ((∃ e, convertGeoJsonToSvg jsonParse render showNum geojsonText goptions = .error e) ↔
      (isBlankStr geojsonText = true ∨ jsonParse geojsonText = none)) ∧
    (jsonParse geojsonText = none →
      convertGeoJsonToSvg jsonParse render showNum geojsonText goptions =
        convertGeoJsonToSvg jsonParse render' showNum geojsonText goptions) := by
  refine ⟨?_, ?_, ?_⟩
  · by_cases hb : isBlankStr svgText
    · simp [convertSvgToGeoJson, hb]
    · simp only [convertSvgToGeoJson, hb, Bool.false_eq_true, if_false, false_or]
      cases hsvg : (parse (sanitizeWithFallback sanitize svgText)).svg with
      | none => simp [hsvg]
      | some svg =>
        simp only [hsvg, Option.some.injEq, reduceCtorEq, false_or]
        by_cases hp : (parse (sanitizeWithFallback sanitize svgText)).paths.isEmpty
        · simp [hp, List.isEmpty_iff.mp hp]
        · have : (parse (sanitizeWithFallback sanitize svgText)).paths ≠ [] := by
            simpa [List.isEmpty_iff] using hp
          simp [hp, this]
  · by_cases hb : isBlankStr geojsonText
    · simp [convertGeoJsonToSvg, hb]
    · simp only [convertGeoJsonToSvg, hb, Bool.false_eq_true, if_false, false_or]
      cases hj : jsonParse geojsonText with
      | none => simp
      | some v => simp
  · intro hj
    by_cases hb : isBlankStr geojsonText <;>
      simp [convertGeoJsonToSvg, hb, hj]

/-- Witness for C7: with a parser that finds no svg element the forward
conversion errors, and with a failing JSON parse the reverse conversion
errors whatever the renderer. -/
theorem C7_input_errors_witness :
    (∃ e, convertSvgToGeoJson (fun _ => none) (fun _ => { svg := none, paths := [] })
        (fun _ _ _ _ _ => []) "x" {} = .error e) ∧
    (∃ e, convertGeoJsonToSvg (fun _ => none) (fun _ => []) (fun _ => "") "x"
        { viewportWidth := 0, viewportHeight := 0 } = .error e) ∧
    convertGeoJsonToSvg (fun _ => none) (fun _ => []) (fun _ => "") "x"
        { viewportWidth := 0, viewportHeight := 0 } =
      convertGeoJsonToSvg (fun _ => none) (fun _ => ["a"]) (fun _ => "") "x"
        { viewportWidth := 0, viewportHeight := 0 } := by
  have h := C7_input_errors (fun _ => none) (fun _ => { svg := none, paths := [] })
    (fun _ _ _ _ _ => []) "x" {} (fun _ => none) (fun _ => []) (fun _ => ["a"])
    (fun _ => "") "x" { viewportWidth := 0, viewportHeight := 0 }
  exact ⟨h.1.mpr (Or.inr (Or.inl rfl)), h.2.1.mpr (Or.inr rfl), h.2.2 rfl⟩

/-- Turning the per-path `if empty then skip else infer` accumulation into
filter-then-map form. -/
theorem filterMap_skip_eq_map_filter {α β : Type} (p : α → Bool) (f : α → β) (l : List α) :
    (l.filterMap fun a => if p a then none else some (f a)) =
      (l.filter fun a => !(p a)).map f := by
  induction l with
  | nil => rfl
  | cons a l ih => by_cases h : p a <;> simp [h, ih]

/-- C9: on a successful forward conversion the emitted features are, in
document order, exactly the inferences over path elements whose sampled
sequence is non-empty (empty ones are silently skipped, never emitted);
the metadata counts all path elements, while the feature count equals the
number of features actually emitted. -/
theorem C9_skip_and_metadata (sanitize : String → Option String)
    (parse : String → DomContainer)
    (sample : PathElement → ℚ → ℕ → ℚ → ℚ → List Coord)
    (svgText : String) (options : SvgToGeoJsonOptions) (r : SvgToGeoJsonResult)
    (hok : convertSvgToGeoJson sanitize parse sample svgText options = .ok r) :
    ∃ svg, (parse (sanitizeWithFallback sanitize svgText)).svg = some svg ∧
      (let paths := (parse (sanitizeWithFallback sanitize svgText)).paths
       let coordsOf := fun pe => sample pe options.scale options.samplePoints
         options.translateX options.translateY
       r.features = ((paths.filter fun pe => !(coordsOf pe).isEmpty).map fun pe =>
           inferGeometry (coordsOf pe) pe options.flipY
             (resolveSvgHeight svg.height svg.viewBox) options.precision) ∧
       r.metadata.pathCount = paths.length ∧
       r.metadata.featureCount = r.features.length ∧
       r.metadata.samplePoints = options.samplePoints) := by
  by_cases hb : isBlankStr svgText
  · rw [convertSvgToGeoJson, if_pos hb] at hok
    exact absurd hok (by simp)
  · rw [convertSvgToGeoJson, if_neg (by simpa using hb)] at hok
    cases hsvg : (parse (sanitizeWithFallback sanitize svgText)).svg with
    | none =>
      simp only [hsvg] at hok
      exact absurd hok (by simp)
    | some svg =>
      simp only [hsvg] at hok
      by_cases hp : (parse (sanitizeWithFallback sanitize svgText)).paths.isEmpty
      · rw [if_pos hp] at hok
        exact absurd hok (by simp)
      · rw [if_neg hp] at hok
        refine ⟨svg, rfl, ?_⟩
        have hr := Except.ok.inj hok
        subst hr
        refine ⟨?_, rfl, rfl, rfl⟩
        exact (filterMap_skip_eq_map_filter _ _ _).symm ▸
          (filterMap_skip_eq_map_filter
            (fun pe => (sample pe options.scale options.samplePoints
              options.translateX options.translateY).isEmpty)
            (fun pe => inferGeometry (sample pe options.scale options.samplePoints
              options.translateX options.translateY) pe options.flipY
              (resolveSvgHeight svg.height svg.viewBox) options.precision)
            (parse (sanitizeWithFallback sanitize svgText)).paths)

/-- Witness for C9: one path samples empty and is skipped, the other is
emitted; pathCount counts both. -/
theorem C9_skip_and_metadata_witness :
    ∃ svg, ((fun _ : String => { svg := some {}, paths := [{ id := some "a" }, { id := some "b" }] } :
        String → DomContainer) (sanitizeWithFallback (fun _ => none) "x")).svg = some svg := by
  obtain ⟨svg, hsvg, _⟩ := C9_skip_and_metadata (fun _ => none)
    (fun _ => { svg := some {}, paths := [{ id := some "a" }, { id := some "b" }] })
    (fun pe _ _ _ _ => if pe.id = some "a" then [] else [(0, 0)]) "x" {} _ rfl
  exact ⟨svg, hsvg⟩

/-! ### Bounding-envelope lemmas -/

mutual

theorem flattenCoords_acc : ∀ (g : Geometry) (acc : List Coord),
    flattenCoords g acc = acc ++ flattenCoords g []
  | .point c, acc => by simp [flattenCoords]
  | .multiPoint cs, acc => by simp [flattenCoords]
  | .lineString cs, acc => by simp [flattenCoords]
  | .multiLineString css, acc => by simp [flattenCoords]
  | .polygon css, acc => by simp [flattenCoords]
  | .multiPolygon csss, acc => by simp [flattenCoords]
  | .geometryColl gs, acc => by
    simp only [flattenCoords]
    exact flattenCoordsList_acc gs acc
  | .unsupported tag, acc => by simp [flattenCoords]

theorem flattenCoordsList_acc : ∀ (gs : List Geometry) (acc : List Coord),
    flattenCoordsList gs acc = acc ++ flattenCoordsList gs []
  | [], acc => by simp [flattenCoordsList]
  | g :: gs, acc => by
    simp only [flattenCoordsList]
    rw [flattenCoords_acc g acc, flattenCoordsList_acc gs (acc ++ flattenCoords g []),
      flattenCoordsList_acc gs (flattenCoords g []), List.append_assoc]

end

theorem foldl_min_le_init {α : Type} [LinearOrder α] (l : List α) (m : α) :
    l.foldl min m ≤ m := by
  induction l generalizing m with
  | nil => exact le_refl m
  | cons a l ih => exact le_trans (ih (min m a)) (min_le_left m a)

theorem foldl_min_le_mem {α : Type} [LinearOrder α] (l : List α) (m x : α)
    (hx : x ∈ l) : l.foldl min m ≤ x := by
  induction l generalizing m with
  | nil => exact absurd hx (List.not_mem_nil x)
  | cons a l ih =>
    rcases List.mem_cons.mp hx with h | h
    · subst h
      exact le_trans (foldl_min_le_init l (min m x)) (min_le_right m x)
    · exact ih (min m a) h

theorem foldl_min_mem_or {α : Type} [LinearOrder α] (l : List α) (m : α) :
    l.foldl min m = m ∨ l.foldl min m ∈ l := by
  induction l generalizing m with
  | nil => exact Or.inl rfl
  | cons a l ih =>
    rcases ih (min m a) with h | h
    · rcases min_choice m a with hm | hm
      · exact Or.inl (by rw [List.foldl_cons, h, hm])
      · exact Or.inr (by rw [List.foldl_cons, h, hm]; exact List.mem_cons_self a l)
    · exact Or.inr (List.mem_cons_of_mem a h)

theorem foldl_max_init_le {α : Type} [LinearOrder α] (l : List α) (m : α) :
    m ≤ l.foldl max m := by
  induction l generalizing m with
  | nil => exact le_refl m
  | cons a l ih => exact le_trans (le_max_left m a) (ih (max m a))

theorem foldl_max_mem_le {α : Type} [LinearOrder α] (l : List α) (m x : α)
    (hx : x ∈ l) : x ≤ l.foldl max m := by
  induction l generalizing m with
  | nil => exact absurd hx (List.not_mem_nil x)
  | cons a l ih =>
    rcases List.mem_cons.mp hx with h | h
    · subst h
      exact le_trans (le_max_right m x) (foldl_max_init_le l (max m x))
    · exact ih (max m a) h

theorem foldl_max_mem_or {α : Type} [LinearOrder α] (l : List α) (m : α) :
    l.foldl max m = m ∨ l.foldl max m ∈ l := by
  induction l generalizing m with
  | nil => exact Or.inl rfl
  | cons a l ih =>
    rcases ih (max m a) with h | h
    · rcases max_choice m a with hm | hm
      · exact Or.inl (by rw [List.foldl_cons, h, hm])
      · exact Or.inr (by rw [List.foldl_cons, h, hm]; exact List.mem_cons_self a l)
    · exact Or.inr (List.mem_cons_of_mem a h)

theorem bboxStep_minX (bb : BoundingBox) (c : Coord) :
    (bboxStep bb c).minX = min bb.minX c.1 := by
  simp only [bboxStep]
  rcases le_or_lt bb.minX c.1 with h | h
  · rw [if_neg (not_lt.mpr h), min_eq_left h]
  · rw [if_pos h, min_eq_right h.le]

theorem bboxStep_minY (bb : BoundingBox) (c : Coord) :
    (bboxStep bb c).minY = min bb.minY c.2 := by
  simp only [bboxStep]
  rcases le_or_lt bb.minY c.2 with h | h
  · rw [if_neg (not_lt.mpr h), min_eq_left h]
  · rw [if_pos h, min_eq_right h.le]

theorem bboxStep_maxX (bb : BoundingBox) (c : Coord) :
    (bboxStep bb c).maxX = max bb.maxX c.1 := by
  simp only [bboxStep]
  rcases le_or_lt c.1 bb.maxX with h | h
  · rw [if_neg (not_lt.mpr h), max_eq_left h]
  · rw [if_pos h, max_eq_right h.le]

theorem bboxStep_maxY (bb : BoundingBox) (c : Coord) :
    (bboxStep bb c).maxY = max bb.maxY c.2 := by
  simp only [bboxStep]
  rcases le_or_lt c.2 bb.maxY with h | h
  · rw [if_neg (not_lt.mpr h), max_eq_left h]
  · rw [if_pos h, max_eq_right h.le]

theorem foldl_bboxStep_minX (l : List Coord) (bb : BoundingBox) :
    (l.foldl bboxStep bb).minX = (l.map Prod.fst).foldl min bb.minX := by
  induction l generalizing bb with
  | nil => rfl
  | cons c l ih => rw [List.foldl_cons, ih, List.map_cons, List.foldl_cons, bboxStep_minX]

theorem foldl_bboxStep_minY (l : List Coord) (bb : BoundingBox) :
    (l.foldl bboxStep bb).minY = (l.map Prod.snd).foldl min bb.minY := by
  induction l generalizing bb with
  | nil => rfl
  | cons c l ih => rw [List.foldl_cons, ih, List.map_cons, List.foldl_cons, bboxStep_minY]

theorem foldl_bboxStep_maxX (l : List Coord) (bb : BoundingBox) :
    (l.foldl bboxStep bb).maxX = (l.map Prod.fst).foldl max bb.maxX := by
  induction l generalizing bb with
  | nil => rfl
  | cons c l ih => rw [List.foldl_cons, ih, List.map_cons, List.foldl_cons, bboxStep_maxX]

theorem foldl_bboxStep_maxY (l : List Coord) (bb : BoundingBox) :
    (l.foldl bboxStep bb).maxY = (l.map Prod.snd).foldl max bb.maxY := by
  induction l generalizing bb with
  | nil => rfl
  | cons c l ih => rw [List.foldl_cons, ih, List.map_cons, List.foldl_cons, bboxStep_maxY]

/-- C8: the bounding-envelope computation flattens any input shape
(feature set, single feature or bare geometry, through every geometry
kind and nested collections) into one flat coordinate list — the
accumulator is append-only and collections concatenate their members'
flattenings — and reduces it by independent min/max over x and y: it is
`none` exactly when the flattened list is empty, each bound is attained
by some coordinate and bounds all of them, and over a single point
feature at (3,4) it returns all four bounds equal to 3 and 4. -/
theorem C8_bounding_envelope (j : GeoJsonValue) :
    (computeBoundingBox j = none ↔ allCoords j = []) ∧
    (∀ bb, computeBoundingBox j = some bb →
      (bb.minX ∈ (allCoords j).map Prod.fst ∧ ∀ x ∈ (allCoords j).map Prod.fst, bb.minX ≤ x) ∧
      (bb.maxX ∈ (allCoords j).map Prod.fst ∧ ∀ x ∈ (allCoords j).map Prod.fst, x ≤ bb.maxX) ∧
      (bb.minY ∈ (allCoords j).map Prod.snd ∧ ∀ y ∈ (allCoords j).map Prod.snd, bb.minY ≤ y) ∧
      (bb.maxY ∈ (allCoords j).map Prod.snd ∧ ∀ y ∈ (allCoords j).map Prod.snd, y ≤ bb.maxY)) ∧
    computeBoundingBox (.feature { geometry := some (.point (3, 4)) }) =
      some { minX := 3, minY := 4, maxX := 3, maxY := 4 } ∧
    (∀ g acc, flattenCoords g acc = acc ++ flattenCoords g []) ∧
    (∀ gs acc, flattenCoords (.geometryColl gs) acc =
      acc ++ (gs.map fun g => flattenCoords g []).flatten) := by
  refine ⟨?_, ?_, ?_, flattenCoords_acc, ?_⟩
  · unfold computeBoundingBox
    cases allCoords j <;> simp
  · intro bb hbb
    unfold computeBoundingBox at hbb
    cases hc : allCoords j with
    | nil => rw [hc] at hbb; exact absurd hbb (by simp)
    | cons c cs =>
      rw [hc] at hbb
      have hbb' := Option.some.inj hbb
      subst hbb'
      have hcmem : c.1 ∈ (c :: cs).map Prod.fst := by simp
      have hcmem2 : c.2 ∈ (c :: cs).map Prod.snd := by simp
      refine ⟨⟨?_, ?_⟩, ⟨?_, ?_⟩, ⟨?_, ?_⟩, ⟨?_, ?_⟩⟩
      · rw [foldl_bboxStep_minX]
        rcases foldl_min_mem_or ((c :: cs).map Prod.fst) c.1 with h | h
        · rw [h]; exact hcmem
        · exact h
      · intro x hx
        rw [foldl_bboxStep_minX]
        exact foldl_min_le_mem _ _ _ hx
      · rw [foldl_bboxStep_maxX]
        rcases foldl_max_mem_or ((c :: cs).map Prod.fst) c.1 with h | h
        · rw [h]; exact hcmem
        · exact h
      · intro x hx
        rw [foldl_bboxStep_maxX]
        exact foldl_max_mem_le _ _ _ hx
      · rw [foldl_bboxStep_minY]
        rcases foldl_min_mem_or ((c :: cs).map Prod.snd) c.2 with h | h
        · rw [h]; exact hcmem2
        · exact h
      · intro y hy
        rw [foldl_bboxStep_minY]
        exact foldl_min_le_mem _ _ _ hy
      · rw [foldl_bboxStep_maxY]
        rcases foldl_max_mem_or ((c :: cs).map Prod.snd) c.2 with h | h
        · rw [h]; exact hcmem2
        · exact h
      · intro y hy
        rw [foldl_bboxStep_maxY]
        exact foldl_max_mem_le _ _ _ hy
  · norm_num [computeBoundingBox, allCoords, collectFeature, flattenCoords, bboxStep]
  · intro gs acc
    rw [flattenCoords_acc]
    congr 1
    simp only [flattenCoords]
    induction gs with
    | nil => simp [flattenCoordsList]
    | cons g gs ih =>
      simp only [flattenCoordsList]
      rw [flattenCoordsList_acc gs (flattenCoords g []), ih, List.map_cons, List.flatten_cons]

/-- Witness for C8: the min/max characterization applied to the concrete
single-point feature. -/
theorem C8_bounding_envelope_witness :
    (3 : ℚ) ∈ (allCoords (.feature { geometry := some (.point (3, 4)) })).map Prod.fst := by
  have h := C8_bounding_envelope (.feature { geometry := some (.point (3, 4)) })
  have hb := h.2.2.1
  have hc := (h.2.1 _ hb).1.1
  exact hc

/-- C10: a geometry with an unrecognized type tag contributes no
coordinates (the dispatch falls through the default branch and leaves the
accumulator untouched); the flattening only ever appends, and the
bounding-box computation is total: it returns `none` or some box for
every input, and `none` (not an error) on a bare unrecognized geometry. -/
theorem C10_unrecognized_tag_safe (tag : String) (acc : List Coord)
    (g : Geometry) (j : GeoJsonValue) :
    flattenCoords (.unsupported tag) acc = acc ∧
    (∃ pushed, flattenCoords g acc = acc ++ pushed) ∧
    (computeBoundingBox j = none ∨ ∃ bb, computeBoundingBox j = some bb) ∧
    computeBoundingBox (.geom (.unsupported tag)) = none := by
  refine ⟨by simp [flattenCoords], ⟨flattenCoords g [], flattenCoords_acc g acc⟩, ?_, ?_⟩
  · cases h : computeBoundingBox j with
    | none => exact Or.inl rfl
    | some bb => exact Or.inr ⟨bb, rfl⟩
  · simp [computeBoundingBox, allCoords, flattenCoords]

end SvgGeo
